import Mathlib

/-!
Verification of the incremental crawl controller of the data-support
repository: the pagination planner of
`non_ocds_scrapy/spiders/uzbekistan_base_spider.py` (`parse_list`), the
date-window resolution of `non_ocds_scrapy/base_spiders/base_spider.py`
(`from_crawler`), the item filters of `non_ocds_scrapy/filters.py`, and the
incremental store of `non_ocds_scrapy/extensions/database_store.py`
(`spider_opened`, `spider_closed`).

Machine integers are modelled as `Int` (Python integers are unbounded, so no
modular reduction is needed); fallible code paths (Python exceptions) are
modelled with `Option`/`Except`.
-/

namespace DataSupport

/-! ## Pagination planner: `UzbekistanBaseSpider.parse_list`

The spider's first request covers `build_filters(0, page_size)`.  On the
first response, `parse_list` reads `total_count` from the first item,
subtracts `last_total_count` when that attribute is truthy, returns with no
output when the resulting `range_end` equals 0, and otherwise forwards the
first page and emits one request per loop iteration of

    from_parameter = self.page_size + 1
    while from_parameter < range_end:
        to_parameter = from_parameter + self.page_size
        yield self.build_request(self.build_filters(from_parameter, to_parameter, ...))
        from_parameter = to_parameter + 1
-/

/-- Body of `build_filters(from_parameter, to_parameter)`: the `from`/`to`
pair sent to the source for one page request.  `from` is a Lean keyword, so
the fields are named `fromP`/`toP`. -/
structure PageFilter where
  fromP : Int
  toP : Int
deriving DecidableEq, Repr

/-- One record of the JSON array in a list response.  Every record of the
sources handled by `parse_list` carries the source-reported `total_count`;
the remaining fields are opaque. -/
structure ListItem where
  total_count : Int
  fields : List (String × String)
deriving DecidableEq, Repr

/-- The `while from_parameter < range_end` loop of `parse_list`, as a
fuel-indexed structural recursion.  `windowsFuel` performs at most `fuel`
iterations; `buildWindows` below supplies fuel that is provably sufficient,
so the pair is an exact embedding of the unbounded loop. -/
def windowsFuel (pageSize : Nat) : Nat → Int → Int → List PageFilter
  | 0, _, _ => []
  | fuel + 1, fromParameter, rangeEnd =>
    if fromParameter < rangeEnd then
      { fromP := fromParameter, toP := fromParameter + pageSize } ::
        windowsFuel pageSize fuel (fromParameter + pageSize + 1) rangeEnd
    else
      []

/-- The page-request windows emitted by the loop of `parse_list`, given the
initial `from_parameter` and the loop bound `range_end`. -/
def buildWindows (pageSize : Nat) (fromParameter rangeEnd : Int) : List PageFilter :=
  windowsFuel pageSize (rangeEnd - fromParameter).toNat fromParameter rangeEnd

/-- Python truthiness of the `last_total_count` attribute, which is either
`None` or an integer: truthy exactly when it is a nonzero integer. -/
def truthyCount : Option Int → Bool
  | none => false
  | some n => n != 0

/-- Everything `parse_list` yields on one first-page response: the items of
the first page that are forwarded to the item pipeline (via
`parse_callback`, whose default `parse` yields each record of the response)
and the page-request windows of the subsequent requests, in emission
order. -/
structure ParseListOutput where
  items : List ListItem
  windows : List PageFilter
deriving DecidableEq, Repr

/-- Embedding of `UzbekistanBaseSpider.parse_list`.  `none` models the
`IndexError` raised by `data[0]` on an empty response; otherwise the
function returns what the generator yields. -/
def parse_list (pageSize : Nat) (last_total_count : Option Int) (data : List ListItem) :
    Option ParseListOutput :=
  match data with
  | [] => none
  | item :: _ =>
    let rangeEnd : Int := item.total_count
    let rangeEnd : Int :=
      if truthyCount last_total_count then rangeEnd - last_total_count.getD 0 else rangeEnd
    if rangeEnd = 0 then
      some { items := [], windows := [] }
    else
      some { items := data, windows := buildWindows pageSize ((pageSize : Int) + 1) rangeEnd }

/-- The two lines of `parse_list` that compute the loop bound:
`range_end = item["total_count"]`, then
`if self.last_total_count: range_end = range_end - self.last_total_count`. -/
def effectiveTotal (last_total_count : Option Int) (total_count : Int) : Int :=
  if truthyCount last_total_count then total_count - last_total_count.getD 0 else total_count

/-! ## Date parsing: `BaseSpider.VALID_DATE_FORMATS` and `datetime.strptime`

`BaseSpider` recognises four date granularities
(`VALID_DATE_FORMATS = {'date': '%Y-%m-%d', 'datetime': '%Y-%m-%dT%H:%M:%S',
'year': '%Y', 'year-month': '%Y-%m'}`) and parses spider arguments with
`datetime.strptime` against the single format selected by the spider's
`date_format` class attribute.  `strptime` is modelled after CPython's
`_strptime`: `%Y` matches exactly four digits, `%m`/`%d`/`%H`/`%M`/`%S`
match two digits when the two-digit value is in range and otherwise fall
back to one digit (with `%m`/`%d` requiring a nonzero single digit),
literal characters must match, the whole string must be consumed, and the
resulting calendar date must be constructible (day valid for the month,
year at least 1). -/

/-- Calendar timestamp at second granularity, the precision of the
`datetime` values this code base produces and parses. -/
structure DateTime where
  year : Nat
  month : Nat
  day : Nat
  hour : Nat
  minute : Nat
  second : Nat
deriving DecidableEq, Repr

/-- The four keys of `BaseSpider.VALID_DATE_FORMATS`. -/
inductive DateGranularity where
  | date
  | datetime
  | year
  | yearMonth
deriving DecidableEq, Repr

/-- One token of a `strptime`/`strftime` format string: a directive or a
literal character. -/
inductive FmtTok where
  | year
  | month
  | day
  | hour
  | minute
  | second
  | lit (c : Char)
deriving DecidableEq, Repr

/-- Format `'%Y-%m-%d'`. -/
def fmtDate : List FmtTok :=
  [.year, .lit '-', .month, .lit '-', .day]

/-- Format `'%Y-%m-%dT%H:%M:%S'`. -/
def fmtDatetime : List FmtTok :=
  [.year, .lit '-', .month, .lit '-', .day, .lit 'T', .hour, .lit ':', .minute, .lit ':', .second]

/-- Format `'%Y'`. -/
def fmtYear : List FmtTok :=
  [.year]

/-- Format `'%Y-%m'`. -/
def fmtYearMonth : List FmtTok :=
  [.year, .lit '-', .month]

/-- The dict `BaseSpider.VALID_DATE_FORMATS`, keyed by the four valid
`date_format` class-attribute values. -/
def VALID_DATE_FORMATS : DateGranularity → List FmtTok
  | .date => fmtDate
  | .datetime => fmtDatetime
  | .year => fmtYear
  | .yearMonth => fmtYearMonth

/-- Numeric value of a decimal digit character. -/
def digitVal (c : Char) : Option Nat :=
  if c.isDigit then some (c.toNat - 48) else none

/-- Directive `%Y`: exactly four decimal digits (CPython regex `\d\d\d\d`). -/
def parseYear4 : List Char → Option (Nat × List Char)
  | c₁ :: c₂ :: c₃ :: c₄ :: rest =>
    match digitVal c₁, digitVal c₂, digitVal c₃, digitVal c₄ with
    | some d₁, some d₂, some d₃, some d₄ =>
      some (d₁ * 1000 + d₂ * 100 + d₃ * 10 + d₄, rest)
    | _, _, _, _ => none
  | _ => none

/-- Two-digit directives (`%m`, `%d`, `%H`, `%M`, `%S`): take two digits
when the two-digit value lies in `[lo, hi]`, otherwise one digit of value
at least `oneLo` (CPython regexes such as `1[0-2]|0[1-9]|[1-9]` for `%m`
and `2[0-3]|[0-1]\d|\d` for `%H`). -/
def parseNum2 (lo hi oneLo : Nat) : List Char → Option (Nat × List Char)
  | [] => none
  | [c] =>
    match digitVal c with
    | some d => if oneLo ≤ d then some (d, []) else none
    | none => none
  | c₁ :: c₂ :: rest =>
    match digitVal c₁ with
    | none => none
    | some d₁ =>
      match digitVal c₂ with
      | some d₂ =>
        if lo ≤ 10 * d₁ + d₂ ∧ 10 * d₁ + d₂ ≤ hi then some (10 * d₁ + d₂, rest)
        else if oneLo ≤ d₁ then some (d₁, c₂ :: rest) else none
      | none => if oneLo ≤ d₁ then some (d₁, c₂ :: rest) else none

/-- CPython `strptime` defaults: year 1900, January 1, midnight. -/
def dtDefault : DateTime :=
  { year := 1900, month := 1, day := 1, hour := 0, minute := 0, second := 0 }

/-- Matching loop of `strptime`: run every format token against the input,
requiring full consumption (`unconverted data remains` otherwise).  Literal
characters are compared case-insensitively (CPython compiles the format
with `re.IGNORECASE`). -/
def runTokens : List FmtTok → List Char → DateTime → Option DateTime
  | [], [], acc => some acc
  | [], _ :: _, _ => none
  | .year :: ts, cs, acc =>
    match parseYear4 cs with
    | some (y, rest) => runTokens ts rest { acc with year := y }
    | none => none
  | .month :: ts, cs, acc =>
    match parseNum2 1 12 1 cs with
    | some (m, rest) => runTokens ts rest { acc with month := m }
    | none => none
  | .day :: ts, cs, acc =>
    match parseNum2 1 31 1 cs with
    | some (d, rest) => runTokens ts rest { acc with day := d }
    | none => none
  | .hour :: ts, cs, acc =>
    match parseNum2 0 23 0 cs with
    | some (h, rest) => runTokens ts rest { acc with hour := h }
    | none => none
  | .minute :: ts, cs, acc =>
    match parseNum2 0 59 0 cs with
    | some (m, rest) => runTokens ts rest { acc with minute := m }
    | none => none
  | .second :: ts, cs, acc =>
    match parseNum2 0 59 0 cs with
    | some (s, rest) => runTokens ts rest { acc with second := s }
    | none => none
  | .lit c :: ts, cs, acc =>
    match cs with
    | c₀ :: rest => if c₀.toLower = c.toLower then runTokens ts rest acc else none
    | [] => none

/-- Gregorian leap-year rule, as used by `datetime`. -/
def isLeapYear (y : Nat) : Bool :=
  (y % 4 == 0 && y % 100 != 0) || y % 400 == 0

/-- Length of a month, as used by the `datetime` constructor. -/
def daysInMonth (y m : Nat) : Nat :=
  if m = 2 then (if isLeapYear y then 29 else 28)
  else if m = 4 ∨ m = 6 ∨ m = 9 ∨ m = 11 then 30
  else 31

/-- Validity checks of the `datetime` constructor (`MINYEAR = 1`,
`MAXYEAR = 9999`, day within the month, time fields in range). -/
def validDate (d : DateTime) : Bool :=
  1 ≤ d.year && d.year ≤ 9999 && 1 ≤ d.month && d.month ≤ 12 &&
    1 ≤ d.day && d.day ≤ daysInMonth d.year d.month &&
    d.hour ≤ 23 && d.minute ≤ 59 && d.second ≤ 59

/-- Embedding of `datetime.strptime(s, fmt)` for the four formats of
`VALID_DATE_FORMATS`: `none` models the `ValueError` raised on a
non-matching string or an invalid calendar date. -/
def strptime (fmt : List FmtTok) (s : String) : Option DateTime :=
  match runTokens fmt s.data dtDefault with
  | some d => if validDate d then some d else none
  | none => none

/-- Zero-padded two-digit decimal rendering (`%02d`). -/
def pad2 (n : Nat) : List Char :=
  [Nat.digitChar (n / 10 % 10), Nat.digitChar (n % 10)]

/-- Zero-padded four-digit decimal rendering (`%Y` as produced for the
years this code base handles). -/
def pad4 (n : Nat) : List Char :=
  [Nat.digitChar (n / 1000 % 10), Nat.digitChar (n / 100 % 10),
    Nat.digitChar (n / 10 % 10), Nat.digitChar (n % 10)]

/-- Rendering of one format token by `datetime.strftime`. -/
def strftimeTok (d : DateTime) : FmtTok → List Char
  | .year => pad4 d.year
  | .month => pad2 d.month
  | .day => pad2 d.day
  | .hour => pad2 d.hour
  | .minute => pad2 d.minute
  | .second => pad2 d.second
  | .lit c => [c]

/-- Embedding of `datetime.strftime(d, fmt)` for the four formats of
`VALID_DATE_FORMATS`. -/
def strftime (fmt : List FmtTok) (d : DateTime) : String :=
  String.mk ((fmt.map (strftimeTok d)).flatten)

/-! ## Date-window resolution: `BaseSpider.from_crawler`

After `crawl_time` handling, `from_crawler` runs

    if spider.from_date or spider.until_date or spider.date_required:
        if not spider.from_date: spider.from_date = spider.default_from_date
        spider.from_date = datetime.strptime(spider.from_date, spider.date_format)   # UsageError on ValueError
        if not spider.until_date: spider.until_date = cls.get_default_until_date(spider)
        if isinstance(spider.until_date, str):
            spider.until_date = datetime.strptime(spider.until_date, spider.date_format)  # UsageError on ValueError

where `get_default_until_date` returns the `default_until_date` class
attribute if truthy, else `datetime.utcnow()`. -/

/-- Python truthiness of an optional string argument: truthy exactly when
present and non-empty. -/
def strTruthy : Option String → Bool
  | none => false
  | some s => s ≠ ""

/-- Per-source date configuration consumed by `from_crawler`: the
`date_format`, `date_required`, `default_from_date` and
`default_until_date` class attributes. -/
structure DateSpiderConfig where
  date_format : DateGranularity
  date_required : Bool
  default_from_date : String
  default_until_date : Option String
deriving DecidableEq, Repr

/-- Embedding of `BaseSpider.get_default_until_date`: the
`default_until_date` class attribute (still a string) if truthy, otherwise
the current time (already a `datetime`). -/
def get_default_until_date (cfg : DateSpiderConfig) (now : DateTime) : String ⊕ DateTime :=
  match cfg.default_until_date with
  | some s => if s ≠ "" then Sum.inl s else Sum.inr now
  | none => Sum.inr now

/-- Embedding of the date-resolution part of `BaseSpider.from_crawler`,
given the `from_date`/`until_date` spider arguments and the current time.
`Except.error` models the `UsageError` raised when `strptime` fails. -/
def resolveDates (cfg : DateSpiderConfig) (from_date until_date : Option String)
    (now : DateTime) : Except String (Option DateTime × Option DateTime) :=
  let fmt := VALID_DATE_FORMATS cfg.date_format
  if strTruthy from_date || strTruthy until_date || cfg.date_required then
    let fromStr := if strTruthy from_date then from_date.getD "" else cfg.default_from_date
    match strptime fmt fromStr with
    | none => .error "spider argument from_date: invalid date value"
    | some fromD =>
      let untilVal : String ⊕ DateTime :=
        if strTruthy until_date then Sum.inl (until_date.getD "")
        else get_default_until_date cfg now
      match untilVal with
      | Sum.inr untilD => .ok (some fromD, some untilD)
      | Sum.inl s =>
        match strptime fmt s with
        | none => .error "spider argument until_date: invalid date value"
        | some untilD => .ok (some fromD, some untilD)
  else
    .ok (none, none)

/-! ## Item filters: `non_ocds_scrapy/filters.py` -/

/-- One harvested record, as a JSON object: a mapping of field names to
opaque scalar values. -/
def recordHasKey (item : List (String × String)) (k : String) : Bool :=
  item.any fun p => p.1 == k

/-- Embedding of `UzbekistanAuctionFilter.accepts`: reject the item when
the key `product_name` is present, accept it otherwise. -/
def uzbekistanAuctionFilter_accepts (item : List (String × String)) : Bool :=
  if recordHasKey item "product_name" then false else true

/-- Embedding of `UzbekistanAuctionProductFilter.accepts`: accept the item
when the key `product_name` is present, reject it otherwise. -/
def uzbekistanAuctionProductFilter_accepts (item : List (String × String)) : Bool :=
  if recordHasKey item "product_name" then true else false

/-! ## Incremental store: `extensions/database_store.py`

The database is modelled as an association list of tables; each table
holds its rows (one opaque `jsonb` record per row, in insertion order) and
the optional field of its secondary index. -/

/-- One database table: the `data jsonb` rows in insertion order, and the
field of the `idx_<table>` index when one was created. -/
structure Table where
  rows : List (List (String × String))
  indexField : Option String
deriving DecidableEq, Repr

/-- A database: an association of table names to tables. -/
def DB : Type :=
  List (String × Table)

instance : DecidableEq DB :=
  inferInstanceAs (DecidableEq (List (String × Table)))

/-- Embedding of `create_table`: `CREATE TABLE IF NOT EXISTS {table} (data jsonb)`. -/
def create_table (db : DB) (t : String) : DB :=
  if (db.lookup t).isSome then db else (t, { rows := [], indexField := none }) :: db

/-- Embedding of `DROP TABLE IF EXISTS {table}`. -/
def dropTable (db : DB) (t : String) : DB :=
  db.filter fun e => ¬ e.1 = t

/-- Update of one table's state. -/
def updateTable (db : DB) (t : String) (f : Table → Table) : DB :=
  db.map fun e => if e.1 = t then (e.1, f e.2) else e

/-- Rows currently stored in a table; a table that does not exist has no
rows. -/
def rowsOf (db : DB) (t : String) : List (List (String × String)) :=
  ((db.lookup t).getD { rows := [], indexField := none }).rows

/-- Embedding of the per-table body of `spider_closed` (lines 104-117):
drop the table if it exists, recreate it, `COPY` every record of the run
into it in order, and create the index when `export_outputs[table]` has an
`index` entry. -/
def replaceTable (db : DB) (t : String) (records : List (List (String × String)))
    (index : Option String) : DB :=
  match index with
  | some f =>
    updateTable
      (updateTable (create_table (dropTable db t) t) t
        fun tab => { tab with rows := tab.rows ++ records })
      t fun tab => { tab with indexField := some f }
  | none =>
    updateTable (create_table (dropTable db t) t) t
      fun tab => { tab with rows := tab.rows ++ records }

/-- Embedding of `spider_closed`: nothing happens unless the crawl reason
is `finished`; otherwise every export output is replaced in turn from the
records the run wrote for it. -/
def spider_closed (reason : String) (db : DB)
    (outputs : List (String × List (List (String × String)) × Option String)) : DB :=
  if ¬ reason = "finished" then db
  else outputs.foldl (fun db o => replaceTable db o.1 o.2.1 o.2.2) db

/-- Sortable key of a timestamp; chronological order on valid dates. -/
def DateTime.key (d : DateTime) : Nat :=
  ((((d.year * 16 + d.month) * 32 + d.day) * 24 + d.hour) * 60 + d.minute) * 60 + d.second

/-- Later of two timestamps, as compared by the database. -/
def dtMax (a b : DateTime) : DateTime :=
  if a.key ≤ b.key then b else a

/-- Embedding of `SELECT max(data->>'{date_column}')::timestamptz FROM {table}`:
the greatest castable value of the date column over the table's rows, with
rows lacking the column (SQL `NULL`) ignored, and `NULL` (`none`) when no
row yields a value.  `cast` models the `::timestamptz` cast of the stored
string. -/
def sqlMaxDate (cast : String → Option DateTime) (col : String)
    (rows : List (List (String × String))) : Option DateTime :=
  rows.foldl
    (fun acc r =>
      match (r.lookup col).bind cast with
      | none => acc
      | some d =>
        match acc with
        | none => some d
        | some m => some (dtMax m d))
    none

/-- The spider state read and written by `DatabaseStore.spider_opened`:
its `from_date` (already resolved to a `datetime` or `None` by
`from_crawler`), its date format, its `default_from_date` class attribute,
and the `name`/`date_column` entries of `export_outputs['main']`. -/
structure StoreSpider where
  from_date : Option DateTime
  date_format : DateGranularity
  default_from_date : Option String
  table_name : String
  date_column : Option String
deriving DecidableEq, Repr

/-- The `default_from_date` computation of `spider_opened`:
`datetime.strptime(spider.default_from_date, spider.date_format)` when the
attribute is truthy, else `None`; the outer `none` models the uncaught
`ValueError` when the attribute does not parse. -/
def parsedDefaultFrom (sp : StoreSpider) : Option (Option DateTime) :=
  match sp.default_from_date with
  | some s =>
    if s ≠ "" then (strptime (VALID_DATE_FORMATS sp.date_format) s).map some
    else some none
  | none => some none

/-- Embedding of `DatabaseStore.spider_opened`: create the main table if
absent, and when `export_outputs['main']` has a `date_column` and
`from_date` is unset or equal to `default_from_date`, set `from_date` to
the maximum stored value of that column (passed through the
`strftime`/`strptime` round trip of lines 74-76) when the query returns
one.  The outer `none` models an uncaught `ValueError`. -/
def spider_opened (cast : String → Option DateTime) (db : DB) (sp : StoreSpider) :
    Option (DB × StoreSpider) :=
  let db := create_table db sp.table_name
  let fmt := VALID_DATE_FORMATS sp.date_format
  match parsedDefaultFrom sp with
  | none => none
  | some defaultFrom =>
    if sp.date_column.isSome ∧ (sp.from_date = none ∨ sp.from_date = defaultFrom) then
      match sqlMaxDate cast (sp.date_column.getD "") (rowsOf db sp.table_name) with
      | none => some (db, sp)
      | some m =>
        match strptime fmt (strftime fmt m) with
        | none => none
        | some resumed => some (db, { sp with from_date := some resumed })
    else
      some (db, sp)

/-- The loop runs the same way under any two sufficient fuels. -/
theorem windowsFuel_eq_of_le (pageSize : Nat) :
    ∀ (fuel₁ fuel₂ : Nat) (fromParameter rangeEnd : Int),
      (rangeEnd - fromParameter).toNat ≤ fuel₁ →
      (rangeEnd - fromParameter).toNat ≤ fuel₂ →
      windowsFuel pageSize fuel₁ fromParameter rangeEnd
        = windowsFuel pageSize fuel₂ fromParameter rangeEnd := by
  intro fuel₁
  induction fuel₁ with
  | zero =>
    intro fuel₂ f r h₁ h₂
    have hfr : ¬ f < r := by omega
    cases fuel₂ with
    | zero => rfl
    | succ n => simp [windowsFuel, hfr]
  | succ n ih =>
    intro fuel₂ f r h₁ h₂
    by_cases hfr : f < r
    · cases fuel₂ with
      | zero => omega
      | succ m =>
        simp only [windowsFuel, hfr, if_true]
        have hrec := ih m (f + pageSize + 1) r (by omega) (by omega)
        rw [hrec]
    · cases fuel₂ with
      | zero => simp [windowsFuel, hfr]
      | succ m => simp [windowsFuel, hfr]

/-- Unfolding equation of `buildWindows`, mirroring one loop iteration. -/
theorem buildWindows_eq (pageSize : Nat) (fromParameter rangeEnd : Int) :
    buildWindows pageSize fromParameter rangeEnd
      = if fromParameter < rangeEnd then
          { fromP := fromParameter, toP := fromParameter + pageSize } ::
            buildWindows pageSize (fromParameter + pageSize + 1) rangeEnd
        else
          [] := by
  unfold buildWindows
  by_cases hfr : fromParameter < rangeEnd
  · have h0 : 0 < (rangeEnd - fromParameter).toNat := by omega
    obtain ⟨n, hn⟩ : ∃ n, (rangeEnd - fromParameter).toNat = n + 1 :=
      ⟨(rangeEnd - fromParameter).toNat - 1, by omega⟩
    rw [hn]
    simp only [windowsFuel, hfr, if_true]
    rw [windowsFuel_eq_of_le pageSize n ((rangeEnd - (fromParameter + pageSize + 1)).toNat)
      (fromParameter + pageSize + 1) rangeEnd (by omega) (le_refl _)]
  · have h0 : (rangeEnd - fromParameter).toNat = 0 := by omega
    rw [h0]
    simp [windowsFuel, hfr]

/-- Shape of every emitted window: it starts no earlier than the running
`from_parameter`, starts below `range_end`, its end is exactly
`from_parameter + page_size`, and its start is reached from the initial
`from_parameter` in steps of `page_size + 1`. -/
theorem mem_windowsFuel {pageSize : Nat} :
    ∀ {fuel : Nat} {fromParameter rangeEnd : Int} {w : PageFilter},
      w ∈ windowsFuel pageSize fuel fromParameter rangeEnd →
      fromParameter ≤ w.fromP ∧ w.fromP < rangeEnd ∧ w.toP = w.fromP + pageSize := by
  intro fuel
  induction fuel with
  | zero => intro f r w hw; simp [windowsFuel] at hw
  | succ n ih =>
    intro f r w hw
    by_cases hfr : f < r
    · simp only [windowsFuel, hfr, if_true, List.mem_cons] at hw
      rcases hw with hw | hw
      · subst hw; exact ⟨le_refl _, hfr, rfl⟩
      · have := ih hw
        exact ⟨by omega, this.2.1, this.2.2⟩
    · simp [windowsFuel, hfr] at hw

/-- Windows are emitted with strictly increasing, pairwise disjoint
ranges: each later window starts strictly after the earlier window's end. -/
theorem windowsFuel_pairwise (pageSize : Nat) :
    ∀ (fuel : Nat) (fromParameter rangeEnd : Int),
      (windowsFuel pageSize fuel fromParameter rangeEnd).Pairwise
        (fun w₁ w₂ => w₁.toP < w₂.fromP ∧ w₁.fromP < w₂.fromP) := by
  intro fuel
  induction fuel with
  | zero => intro f r; simp [windowsFuel]
  | succ n ih =>
    intro f r
    by_cases hfr : f < r
    · simp only [windowsFuel, hfr, if_true]
      refine List.Pairwise.cons ?_ (ih _ _)
      intro w hw
      obtain ⟨h₁, h₂, h₃⟩ := mem_windowsFuel hw
      constructor
      · show f + (pageSize : Int) < w.fromP
        omega
      · show f < w.fromP
        omega
    · simp [windowsFuel, hfr]

/-- Coverage: every offset `x` with `from_parameter ≤ x < range_end` lies in
some emitted window, read as the inclusive range `[fromP, toP]`. -/
theorem windowsFuel_cover (pageSize : Nat) :
    ∀ (fuel : Nat) (fromParameter rangeEnd x : Int),
      (rangeEnd - fromParameter).toNat ≤ fuel →
      fromParameter ≤ x → x < rangeEnd →
      ∃ w ∈ windowsFuel pageSize fuel fromParameter rangeEnd,
        w.fromP ≤ x ∧ x ≤ w.toP := by
  intro fuel
  induction fuel with
  | zero => intro f r x hfuel hx₁ hx₂; omega
  | succ n ih =>
    intro f r x hfuel hx₁ hx₂
    have hfr : f < r := by omega
    simp only [windowsFuel, hfr, if_true]
    by_cases hx : x ≤ f + pageSize
    · exact ⟨{ fromP := f, toP := f + pageSize }, List.mem_cons_self _ _, hx₁, hx⟩
    · obtain ⟨w, hw, h₁, h₂⟩ :=
        ih (f + pageSize + 1) r x (by omega) (by omega) hx₂
      exact ⟨w, List.mem_cons_of_mem _ hw, h₁, h₂⟩

/-- Consecutive windows are adjacent: the next window starts exactly one
past the previous window's end (`from_parameter = to_parameter + 1`). -/
theorem windowsFuel_chain (pageSize : Nat) :
    ∀ (fuel : Nat) (fromParameter rangeEnd : Int),
      (windowsFuel pageSize fuel fromParameter rangeEnd).Chain'
        (fun w₁ w₂ => w₂.fromP = w₁.toP + 1) := by
  intro fuel
  induction fuel with
  | zero => intro f r; simp [windowsFuel]
  | succ n ih =>
    intro f r
    by_cases hfr : f < r
    · simp only [windowsFuel, hfr, if_true]
      refine List.chain'_cons'.mpr ⟨?_, ih _ _⟩
      intro w hw
      cases n with
      | zero => simp [windowsFuel] at hw
      | succ m =>
        by_cases hfr2 : f + pageSize + 1 < r
        · simp only [windowsFuel, hfr2, if_true, List.head?_cons, Option.mem_def,
            Option.some.injEq] at hw
          subst hw
          simp
        · simp [windowsFuel, hfr2] at hw
    · simp [windowsFuel, hfr]

/-- Windows are empty when the loop bound is at or below the initial
`from_parameter` (in particular for a nonpositive bound). -/
theorem buildWindows_eq_nil {pageSize : Nat} {fromParameter rangeEnd : Int}
    (h : rangeEnd ≤ fromParameter) :
    buildWindows pageSize fromParameter rangeEnd = [] := by
  have h0 : (rangeEnd - fromParameter).toNat = 0 := by omega
  simp [buildWindows, h0, windowsFuel]

/-- Evaluation of `parse_list` on a non-empty first page, in terms of
`effectiveTotal` and `buildWindows`. -/
theorem parse_list_cons (pageSize : Nat) (last_total_count : Option Int)
    (item : ListItem) (rest : List ListItem) :
    parse_list pageSize last_total_count (item :: rest)
      = if effectiveTotal last_total_count item.total_count = 0 then
          some { items := [], windows := [] }
        else
          some { items := item :: rest,
                 windows := buildWindows pageSize ((pageSize : Int) + 1)
                   (effectiveTotal last_total_count item.total_count) } := rfl

/-- C1 (counterexample): for `total_count = 25`, `page_size = 10` and no
previous count, `parse_list` emits the filters `(11, 21)` and `(22, 32)` —
not the claimed windows `[10, 20)` and `[20, 25)` — and the final window's
end `32` exceeds the effective total `25` instead of being clipped to it. -/
theorem C1_pagination_counterexample :
    parse_list 10 none [{ total_count := 25, fields := [] }]
      = some { items := [{ total_count := 25, fields := [] }],
               windows := [{ fromP := 11, toP := 21 }, { fromP := 22, toP := 32 }] }
    ∧ [PageFilter.mk 11 21, PageFilter.mk 22 32]
        ≠ [PageFilter.mk 10 20, PageFilter.mk 20 25]
    ∧ ¬ (∀ w ∈ [PageFilter.mk 11 21, PageFilter.mk 22 32], w.toP ≤ 25) := by
  decide

/-- C1 (amended): after the first response the planner emits the windows
`(from, from + page_size)` for `from = page_size + 1, 2 (page_size + 1), …`
while `from < effective_total`; read as inclusive integer ranges they are
pairwise disjoint and adjacent (no overlap and no gap), the first starts at
`page_size + 1`, every integer in `[page_size + 1, effective_total)` is
covered, and every window — the final one included — spans a full
`page_size` beyond its start, with no clipping to the effective total. -/
theorem C1_pagination_amended (pageSize : Nat) (last_total_count : Option Int)
    (item : ListItem) (rest : List ListItem) (out : ParseListOutput)
    (h : parse_list pageSize last_total_count (item :: rest) = some out) :
    (∀ w ∈ out.windows,
        w.toP = w.fromP + pageSize ∧ (pageSize : Int) + 1 ≤ w.fromP ∧
          w.fromP < effectiveTotal last_total_count item.total_count)
    ∧ out.windows.Pairwise (fun w₁ w₂ => w₁.toP < w₂.fromP)
    ∧ out.windows.Chain' (fun w₁ w₂ => w₂.fromP = w₁.toP + 1)
    ∧ (∀ x : Int, (pageSize : Int) + 1 ≤ x →
        x < effectiveTotal last_total_count item.total_count →
        ∃ w ∈ out.windows, w.fromP ≤ x ∧ x ≤ w.toP)
    ∧ (∀ w, out.windows.head? = some w → w.fromP = (pageSize : Int) + 1) := by
  rw [parse_list_cons] at h
  set eff := effectiveTotal last_total_count item.total_count with heff
  by_cases h0 : eff = 0
  · rw [if_pos h0] at h
    cases h
    refine ⟨by simp, by simp, by simp, ?_, by simp⟩
    intro x hx₁ hx₂
    omega
  · rw [if_neg h0] at h
    cases h
    simp only
    refine ⟨?_, ?_, ?_, ?_, ?_⟩
    · intro w hw
      have : (pageSize : Int) + 1 ≤ w.fromP ∧ w.fromP < eff ∧ w.toP = w.fromP + pageSize :=
        mem_windowsFuel hw
      exact ⟨this.2.2, this.1, this.2.1⟩
    · exact (windowsFuel_pairwise pageSize _ _ _).imp fun hp => hp.1
    · exact windowsFuel_chain pageSize _ _ _
    · intro x hx₁ hx₂
      exact windowsFuel_cover pageSize _ _ _ x (le_refl _) hx₁ hx₂
    · intro w hw
      rw [buildWindows_eq] at hw
      by_cases hlt : (pageSize : Int) + 1 < eff
      · rw [if_pos hlt] at hw
        simp only [List.head?_cons, Option.some.injEq] at hw
        subst hw
        rfl
      · rw [if_neg hlt] at hw
        simp at hw

/-- C1 (witness): at `total_count = 25`, `page_size = 10`, no previous
count, the emitted windows are pairwise disjoint. -/
theorem C1_pagination_amended_witness :
    (ParseListOutput.mk [{ total_count := 25, fields := [] }]
        [{ fromP := 11, toP := 21 }, { fromP := 22, toP := 32 }]).windows.Pairwise
      (fun w₁ w₂ => w₁.toP < w₂.fromP) :=
  (C1_pagination_amended 10 none { total_count := 25, fields := [] } []
    (ParseListOutput.mk [{ total_count := 25, fields := [] }]
      [{ fromP := 11, toP := 21 }, { fromP := 22, toP := 32 }]) (by decide)).2.1

/-- C2 (confirmed): when `last_total_count` is present and equals the
source-reported `total_count`, `parse_list` yields nothing at all: no page
windows, and none of the first page's items — whatever the page size, the
count, or the rest of the first page. -/
theorem C2_zero_delta (pageSize : Nat) (item : ListItem) (rest : List ListItem) :
    parse_list pageSize (some item.total_count) (item :: rest)
      = some { items := [], windows := [] } := by
  rw [parse_list_cons]
  by_cases h : item.total_count = 0
  · simp [effectiveTotal, truthyCount, h]
  · simp [effectiveTotal, truthyCount, h]

/-- C4 (confirmed): on a first page reporting `total_count = 0`,
`parse_list` raises nothing and emits no page windows for any nonnegative
previous count, and — for a previous count in the planner's domain, which
for a zero total is absence or `0` — it also forwards no records. -/
theorem C4_empty_source (pageSize : Nat) (last_total_count : Option Int)
    (item : ListItem) (rest : List ListItem) (h0 : item.total_count = 0)
    (hnn : ∀ c, last_total_count = some c → 0 ≤ c) :
    (∃ out, parse_list pageSize last_total_count (item :: rest) = some out ∧ out.windows = [])
    ∧ ((last_total_count = none ∨ last_total_count = some 0) →
        parse_list pageSize last_total_count (item :: rest)
          = some { items := [], windows := [] }) := by
  rw [parse_list_cons]
  cases last_total_count with
  | none =>
    rw [if_pos]
    · exact ⟨⟨_, rfl, rfl⟩, fun _ => rfl⟩
    · simp [effectiveTotal, truthyCount, h0]
  | some c =>
    by_cases hc : c = 0
    · subst hc
      rw [if_pos]
      · exact ⟨⟨_, rfl, rfl⟩, fun _ => rfl⟩
      · simp [effectiveTotal, truthyCount, h0]
    · have hcpos : 0 < c := lt_of_le_of_ne (hnn c rfl) (Ne.symm hc)
      have heff : effectiveTotal (some c) item.total_count = -c := by
        simp [effectiveTotal, truthyCount, hc, h0]
      rw [if_neg (by omega)]
      constructor
      · exact ⟨_, rfl, by rw [heff]; exact buildWindows_eq_nil (by omega)⟩
      · intro hdom
        rcases hdom with hdom | hdom
        · cases hdom
        · cases hdom; omega

/-- C4 (witness): page size 10, no previous count, a first page whose only
record reports `total_count = 0`. -/
theorem C4_empty_source_witness :
    parse_list 10 none [{ total_count := 0, fields := [] }]
      = some { items := [], windows := [] } :=
  (C4_empty_source 10 none { total_count := 0, fields := [] } [] rfl
    (fun _ h => nomatch h)).2 (Or.inl rfl)

/-- C7 (confirmed): within one run the emitted windows are strictly
increasing and pairwise non-overlapping — every later window's start
exceeds every offset (up to and including the end) of every earlier
window — and no window is emitted twice. -/
theorem C7_window_monotonicity (pageSize : Nat) (last_total_count : Option Int)
    (data : List ListItem) (out : ParseListOutput)
    (h : parse_list pageSize last_total_count data = some out) :
    out.windows.Pairwise (fun w₁ w₂ => w₁.toP < w₂.fromP ∧ w₁.fromP < w₂.fromP)
    ∧ out.windows.Nodup := by
  have hp : out.windows.Pairwise (fun w₁ w₂ => w₁.toP < w₂.fromP ∧ w₁.fromP < w₂.fromP) := by
    cases data with
    | nil => simp [parse_list] at h
    | cons item rest =>
      rw [parse_list_cons] at h
      by_cases h0 : effectiveTotal last_total_count item.total_count = 0
      · rw [if_pos h0] at h
        cases h
        simp
      · rw [if_neg h0] at h
        cases h
        exact windowsFuel_pairwise pageSize _ _ _
  refine ⟨hp, ?_⟩
  exact hp.imp fun hw => by
    intro heq
    subst heq
    omega

/-- C7 (witness): the windows of the run with `total_count = 25`,
`page_size = 10`, no previous count, are strictly increasing and distinct. -/
theorem C7_window_monotonicity_witness :
    (ParseListOutput.mk [{ total_count := 25, fields := [] }]
        [{ fromP := 11, toP := 21 }, { fromP := 22, toP := 32 }]).windows.Nodup :=
  (C7_window_monotonicity 10 none [{ total_count := 25, fields := [] }]
    (ParseListOutput.mk [{ total_count := 25, fields := [] }]
      [{ fromP := 11, toP := 21 }, { fromP := 22, toP := 32 }]) (by decide)).2

/-- C10 (confirmed): a previous total count of `0` is falsy, so
`parse_list` behaves exactly as with no previous count at all: same raised
or returned outcome, same forwarded items, same windows, on every first
page. -/
theorem C10_zero_previous_count (pageSize : Nat) (data : List ListItem) :
    parse_list pageSize (some 0) data = parse_list pageSize none data := by
  cases data <;> rfl

/-- C9 (confirmed): the two Uzbekistan auction filters return complementary
booleans on every item, decided by presence of the key `product_name`, so
every record is accepted by exactly one of the two sinks. -/
theorem C9_filters_complementary (item : List (String × String)) :
    uzbekistanAuctionProductFilter_accepts item = ! uzbekistanAuctionFilter_accepts item
    ∧ (uzbekistanAuctionFilter_accepts item = true ↔ recordHasKey item "product_name" = false)
    ∧ (uzbekistanAuctionProductFilter_accepts item = true
        ↔ recordHasKey item "product_name" = true) := by
  by_cases h : recordHasKey item "product_name" = true
  · simp [uzbekistanAuctionFilter_accepts, uzbekistanAuctionProductFilter_accepts, h]
  · simp only [Bool.not_eq_true] at h
    simp [uzbekistanAuctionFilter_accepts, uzbekistanAuctionProductFilter_accepts, h]

/-- Dropping a table leaves no entry with its name to look up. -/
theorem lookup_dropTable_self (db : DB) (t : String) :
    (dropTable db t).lookup t = none := by
  induction db with
  | nil => rfl
  | cons e rest ih =>
    obtain ⟨k, tab⟩ := e
    by_cases h : k = t
    · simpa [dropTable, h] using ih
    · have hne : (t == k) = false := by
        simp [Ne.symm h]
      simpa [dropTable, h, List.lookup, hne] using ih

/-- Updating a table that was just dropped changes nothing. -/
theorem updateTable_dropTable (db : DB) (t : String) (f : Table → Table) :
    updateTable (dropTable db t) t f = dropTable db t := by
  unfold updateTable
  conv_rhs => rw [← List.map_id (dropTable db t)]
  apply List.map_congr_left
  intro e he
  have hne : ¬ e.1 = t := by
    have := (List.mem_filter.mp he).2
    simpa using this
  simp [hne]

/-- Dropping a table twice equals dropping it once. -/
theorem dropTable_dropTable (db : DB) (t : String) :
    dropTable (dropTable db t) t = dropTable db t := by
  unfold dropTable
  induction db with
  | nil => rfl
  | cons e rest ih =>
    by_cases h : e.1 = t
    · simp [List.filter_cons, h, ih]
    · simp [List.filter_cons, h, ih]

/-- Update of a table at the head of the database. -/
theorem updateTable_cons (k : String) (tab : Table) (rest : DB) (t : String)
    (f : Table → Table) :
    updateTable ((k, tab) :: rest) t f
      = (if k = t then (k, f tab) else (k, tab)) :: updateTable rest t f := rfl

/-- Closed form of the table replacement of `spider_closed`: the table
holds exactly the run's records (and the requested index), on top of the
database without that table. -/
theorem replaceTable_eq (db : DB) (t : String)
    (records : List (List (String × String))) (index : Option String) :
    replaceTable db t records index
      = (t, { rows := records, indexField := index }) :: dropTable db t := by
  have hcreate : create_table (dropTable db t) t
      = (t, { rows := [], indexField := none }) :: dropTable db t := by
    simp [create_table, lookup_dropTable_self]
  cases index with
  | none =>
    simp only [replaceTable]
    rw [hcreate, updateTable_cons, if_pos rfl, updateTable_dropTable]
    simp
  | some f =>
    simp only [replaceTable]
    rw [hcreate, updateTable_cons, if_pos rfl, updateTable_dropTable,
      updateTable_cons, if_pos rfl, updateTable_dropTable]
    simp

/-- C8 (confirmed): the table replace of `spider_closed` is idempotent —
replacing a table twice with the same record sequence leaves the database
in the same observable state as replacing it once, and after either call
the table holds exactly the run's records. -/
theorem C8_replace_idempotent (db : DB) (t : String)
    (records : List (List (String × String))) (index : Option String) :
    replaceTable (replaceTable db t records index) t records index
        = replaceTable db t records index
    ∧ rowsOf (replaceTable db t records index) t = records
    ∧ (replaceTable db t records index).lookup t
        = some { rows := records, indexField := index } := by
  have hdrop : dropTable (replaceTable db t records index) t = dropTable db t := by
    rw [replaceTable_eq]
    show dropTable ((t, _) :: dropTable db t) t = dropTable db t
    unfold dropTable
    simp only [List.filter_cons]
    rw [if_neg (by simp)]
    exact dropTable_dropTable db t
  refine ⟨?_, ?_, ?_⟩
  · rw [replaceTable_eq (replaceTable db t records index), hdrop, replaceTable_eq]
  · rw [replaceTable_eq]
    simp [rowsOf, List.lookup]
  · rw [replaceTable_eq]
    simp [List.lookup]

/-- A truthy `from_date` argument makes the supplied-override branch of
`from_crawler` active. -/
theorem strTruthy_some {s : String} (h : s ≠ "") : strTruthy (some s) = true := by
  simp [strTruthy, h]

/-- C3 (counterexample): under the `BaseSpider` default configuration
(`date_format = 'datetime'`), the override `"2022"` matches the `year`
granularity yet `from_crawler` raises: acceptance is not "matches one of
the four granularities". -/
theorem C3_date_format_counterexample :
    (strptime fmtYear "2022").isSome = true
    ∧ (resolveDates
          { date_format := .datetime, date_required := true,
            default_from_date := "2022-01-01T00:00:00", default_until_date := none }
          (some "2022") none
          { year := 2024, month := 1, day := 1, hour := 0, minute := 0, second := 0 }).toOption
        = none := by
  decide

/-- C3 (amended): parsing a supplied `from_date` or `until_date` override
fails — raising the fatal `UsageError` before any request is built —
exactly when the supplied string does not match the single granularity
configured by the spider's `date_format` attribute (one of date, datetime,
year, year-month); a string matching that configured granularity is
accepted and becomes the corresponding bound of the run.  The `until_date`
half is stated with the other override absent and the default `from_date`
parsing (so that the override under test is the only possible failure). -/
theorem C3_date_format_amended (cfg : DateSpiderConfig) (s : String) (now : DateTime)
    (hs : s ≠ "") (hdu : cfg.default_until_date = none) :
    ((resolveDates cfg (some s) none now).toOption = none ↔
        strptime (VALID_DATE_FORMATS cfg.date_format) s = none)
    ∧ (∀ d, strptime (VALID_DATE_FORMATS cfg.date_format) s = some d →
        resolveDates cfg (some s) none now = .ok (some d, some now))
    ∧ (∀ fd, strptime (VALID_DATE_FORMATS cfg.date_format) cfg.default_from_date = some fd →
        ((resolveDates cfg none (some s) now).toOption = none ↔
          strptime (VALID_DATE_FORMATS cfg.date_format) s = none))
    ∧ (∀ fd d, strptime (VALID_DATE_FORMATS cfg.date_format) cfg.default_from_date = some fd →
        strptime (VALID_DATE_FORMATS cfg.date_format) s = some d →
        resolveDates cfg none (some s) now = .ok (some fd, some d)) := by
  have hd : decide (s ≠ "") = true := by simp [hs]
  have hres : resolveDates cfg (some s) none now
      = match strptime (VALID_DATE_FORMATS cfg.date_format) s with
        | none => .error "spider argument from_date: invalid date value"
        | some fromD => .ok (some fromD, some now) := by
    simp only [resolveDates, strTruthy, hd, Bool.true_or, if_true, Option.getD_some,
      Bool.false_eq_true, if_false, get_default_until_date, hdu]
  have hres2 : ∀ fd, strptime (VALID_DATE_FORMATS cfg.date_format) cfg.default_from_date
        = some fd →
      resolveDates cfg none (some s) now
        = match strptime (VALID_DATE_FORMATS cfg.date_format) s with
          | none => .error "spider argument until_date: invalid date value"
          | some untilD => .ok (some fd, some untilD) := by
    intro fd hfd
    simp only [resolveDates, strTruthy, hd, Bool.false_or, Bool.true_or, if_true,
      Bool.false_eq_true, if_false, Option.getD_some, hfd]
  refine ⟨?_, ?_, ?_, ?_⟩
  · rw [hres]
    cases hp : strptime (VALID_DATE_FORMATS cfg.date_format) s with
    | none => simp [Except.toOption]
    | some d => simp [Except.toOption]
  · intro d hd2
    rw [hres, hd2]
  · intro fd hfd
    rw [hres2 fd hfd]
    cases hp : strptime (VALID_DATE_FORMATS cfg.date_format) s with
    | none => simp [Except.toOption]
    | some d => simp [Except.toOption]
  · intro fd d hfd hd2
    rw [hres2 fd hfd, hd2]

/-- C3 (witness): a datetime-granularity string supplied as `from_date` is
accepted under the datetime configuration and becomes the resolved lower
bound, and the same string supplied as `until_date` is accepted and
becomes the resolved upper bound. -/
theorem C3_date_format_amended_witness :
    resolveDates
        { date_format := .datetime, date_required := true,
          default_from_date := "2022-01-01T00:00:00", default_until_date := none }
        (some "2023-05-06T07:08:09") none
        { year := 2024, month := 1, day := 1, hour := 0, minute := 0, second := 0 }
      = .ok
          (some { year := 2023, month := 5, day := 6, hour := 7, minute := 8, second := 9 },
            some { year := 2024, month := 1, day := 1, hour := 0, minute := 0, second := 0 })
    ∧ resolveDates
        { date_format := .datetime, date_required := true,
          default_from_date := "2022-01-01T00:00:00", default_until_date := none }
        none (some "2023-05-06T07:08:09")
        { year := 2024, month := 1, day := 1, hour := 0, minute := 0, second := 0 }
      = .ok
          (some { year := 2022, month := 1, day := 1, hour := 0, minute := 0, second := 0 },
            some { year := 2023, month := 5, day := 6, hour := 7, minute := 8, second := 9 }) :=
  ⟨(C3_date_format_amended
        { date_format := .datetime, date_required := true,
          default_from_date := "2022-01-01T00:00:00", default_until_date := none }
        "2023-05-06T07:08:09"
        { year := 2024, month := 1, day := 1, hour := 0, minute := 0, second := 0 }
        (by decide) rfl).2.1
      { year := 2023, month := 5, day := 6, hour := 7, minute := 8, second := 9 } (by decide),
    (C3_date_format_amended
        { date_format := .datetime, date_required := true,
          default_from_date := "2022-01-01T00:00:00", default_until_date := none }
        "2023-05-06T07:08:09"
        { year := 2024, month := 1, day := 1, hour := 0, minute := 0, second := 0 }
        (by decide) rfl).2.2.2
      { year := 2022, month := 1, day := 1, hour := 0, minute := 0, second := 0 }
      { year := 2023, month := 5, day := 6, hour := 7, minute := 8, second := 9 }
      (by decide) (by decide)⟩

/-- Characterization of every non-raising outcome of the date resolution:
either the date branch was inactive and both dates stay `None`, or both
dates are set, `from` from the override-or-default string and `until` from
the override, the truthy `default_until_date`, or the current time. -/
theorem resolveDates_spec (cfg : DateSpiderConfig) (fa ua : Option String) (now : DateTime)
    (p : Option DateTime × Option DateTime)
    (h : (resolveDates cfg fa ua now).toOption = some p) :
    ((strTruthy fa || strTruthy ua || cfg.date_required) = false ∧ p = (none, none))
    ∨ ((strTruthy fa || strTruthy ua || cfg.date_required) = true
        ∧ ∃ fd ud,
            p = (some fd, some ud)
            ∧ strptime (VALID_DATE_FORMATS cfg.date_format)
                (if strTruthy fa then fa.getD "" else cfg.default_from_date) = some fd
            ∧ ((strTruthy ua = true
                  ∧ strptime (VALID_DATE_FORMATS cfg.date_format) (ua.getD "") = some ud)
               ∨ (strTruthy ua = false ∧ get_default_until_date cfg now = Sum.inr ud)
               ∨ (strTruthy ua = false
                    ∧ ∃ s, get_default_until_date cfg now = Sum.inl s
                        ∧ strptime (VALID_DATE_FORMATS cfg.date_format) s = some ud))) := by
  by_cases hact : (strTruthy fa || strTruthy ua || cfg.date_required) = true
  · right
    refine ⟨hact, ?_⟩
    simp only [resolveDates, hact, if_true] at h
    by_cases hua : strTruthy ua = true
    · simp only [hua, if_true] at h
      split at h
      · simp [Except.toOption] at h
      · rename_i fd heqf
        split at h
        · simp [Except.toOption] at h
        · rename_i ud hequ
          simp only [Except.toOption, Option.some.injEq] at h
          subst h
          exact ⟨fd, ud, rfl, heqf, Or.inl ⟨hua, hequ⟩⟩
    · have hua' : strTruthy ua = false := by simpa using hua
      simp only [hua', Bool.false_eq_true, if_false] at h
      split at h
      · simp [Except.toOption] at h
      · rename_i fd heqf
        split at h
        · rename_i ud heqv
          simp only [Except.toOption, Option.some.injEq] at h
          subst h
          exact ⟨fd, ud, rfl, heqf, Or.inr (Or.inl ⟨hua', heqv⟩)⟩
        · rename_i s heqv
          split at h
          · simp [Except.toOption] at h
          · rename_i ud hequ
            simp only [Except.toOption, Option.some.injEq] at h
            subst h
            exact ⟨fd, ud, rfl, heqf, Or.inr (Or.inr ⟨hua', s, heqv, hequ⟩)⟩
  · left
    have hact' : (strTruthy fa || strTruthy ua || cfg.date_required) = false := by
      simpa using hact
    simp only [resolveDates, hact', Bool.false_eq_true, if_false, Except.toOption,
      Option.some.injEq] at h
    exact ⟨hact', h.symm⟩

/-- C5 (confirmed): the resolved date window of `from_crawler` satisfies:
with `date_required` false and no override, both dates stay `None`; when
the branch is active, `from_date` is the parsed override when supplied and
the parsed `default_from_date` otherwise, and `until_date` is the parsed
override when supplied and otherwise the `get_default_until_date()` result
— the parsed `default_until_date` when that attribute is truthy, else the
current time. -/
theorem C5_date_window_resolution (cfg : DateSpiderConfig)
    (from_date until_date : Option String) (now : DateTime) :
    (strTruthy from_date = false → strTruthy until_date = false →
      cfg.date_required = false →
      resolveDates cfg from_date until_date now = .ok (none, none))
    ∧ (∀ s fd p, from_date = some s → s ≠ "" →
        strptime (VALID_DATE_FORMATS cfg.date_format) s = some fd →
        (resolveDates cfg from_date until_date now).toOption = some p → p.1 = some fd)
    ∧ (∀ fd p, strTruthy from_date = false →
        (strTruthy until_date = true ∨ cfg.date_required = true) →
        strptime (VALID_DATE_FORMATS cfg.date_format) cfg.default_from_date = some fd →
        (resolveDates cfg from_date until_date now).toOption = some p → p.1 = some fd)
    ∧ (∀ s ud p, until_date = some s → s ≠ "" →
        strptime (VALID_DATE_FORMATS cfg.date_format) s = some ud →
        (resolveDates cfg from_date until_date now).toOption = some p → p.2 = some ud)
    ∧ (∀ p, strTruthy until_date = false →
        (strTruthy from_date = true ∨ cfg.date_required = true) →
        (cfg.default_until_date = none ∨ cfg.default_until_date = some "") →
        (resolveDates cfg from_date until_date now).toOption = some p → p.2 = some now)
    ∧ (∀ s ud p, strTruthy until_date = false →
        (strTruthy from_date = true ∨ cfg.date_required = true) →
        cfg.default_until_date = some s → s ≠ "" →
        strptime (VALID_DATE_FORMATS cfg.date_format) s = some ud →
        (resolveDates cfg from_date until_date now).toOption = some p → p.2 = some ud) := by
  refine ⟨?_, ?_, ?_, ?_, ?_, ?_⟩
  · intro h1 h2 h3
    simp [resolveDates, h1, h2, h3]
  · intro s fd p hfa hs hparse htoOpt
    have hft : strTruthy from_date = true := by rw [hfa]; exact strTruthy_some hs
    rcases resolveDates_spec cfg from_date until_date now p htoOpt with ⟨hact, _⟩ | ⟨_, hchar⟩
    · rw [hft] at hact; simp at hact
    · obtain ⟨fd', ud, hp, heqf, _⟩ := hchar
      rw [hft, if_pos rfl, hfa, Option.getD_some, hparse] at heqf
      cases heqf
      rw [hp]
  · intro fd p hff hactive hparse htoOpt
    rcases resolveDates_spec cfg from_date until_date now p htoOpt with ⟨hact, _⟩ | ⟨_, hchar⟩
    · rcases hactive with ha | ha <;> rw [ha] at hact <;> simp at hact
    · obtain ⟨fd', ud, hp, heqf, _⟩ := hchar
      rw [hff] at heqf
      simp only [Bool.false_eq_true, if_false] at heqf
      rw [hparse] at heqf
      cases heqf
      rw [hp]
  · intro s ud p hua hs hparse htoOpt
    have hut : strTruthy until_date = true := by rw [hua]; exact strTruthy_some hs
    rcases resolveDates_spec cfg from_date until_date now p htoOpt with ⟨hact, _⟩ | ⟨_, hchar⟩
    · rw [hut] at hact; simp at hact
    · obtain ⟨fd, ud', hp, _, hu⟩ := hchar
      rcases hu with ⟨_, hequ⟩ | ⟨huf, _⟩ | ⟨huf, _⟩
      · rw [hua, Option.getD_some, hparse] at hequ
        cases hequ
        rw [hp]
      · rw [hut] at huf; cases huf
      · rw [hut] at huf; cases huf
  · intro p huf hactive hdef htoOpt
    rcases resolveDates_spec cfg from_date until_date now p htoOpt with ⟨hact, _⟩ | ⟨_, hchar⟩
    · rcases hactive with ha | ha <;> rw [ha] at hact <;> simp at hact
    · obtain ⟨fd, ud, hp, _, hu⟩ := hchar
      have hval : get_default_until_date cfg now = Sum.inr now := by
        rcases hdef with hd | hd <;> simp [get_default_until_date, hd]
      rcases hu with ⟨hut, _⟩ | ⟨_, heqv⟩ | ⟨_, s', heqv, _⟩
      · rw [huf] at hut; cases hut
      · rw [hval] at heqv
        cases heqv
        rw [hp]
      · rw [hval] at heqv; cases heqv
  · intro s ud p huf hactive hdef hs hparse htoOpt
    rcases resolveDates_spec cfg from_date until_date now p htoOpt with ⟨hact, _⟩ | ⟨_, hchar⟩
    · rcases hactive with ha | ha <;> rw [ha] at hact <;> simp at hact
    · obtain ⟨fd, ud', hp, _, hu⟩ := hchar
      have hval : get_default_until_date cfg now = Sum.inl s := by
        simp [get_default_until_date, hdef, hs]
      rcases hu with ⟨hut, _⟩ | ⟨_, heqv⟩ | ⟨_, s', heqv, hequ⟩
      · rw [huf] at hut; cases hut
      · rw [hval] at heqv; cases heqv
      · rw [hval] at heqv
        cases heqv
        rw [hparse] at hequ
        cases hequ
        rw [hp]

/-- C5 (witness): with `date_required` false and no overrides, resolution
returns `(None, None)`. -/
theorem C5_date_window_resolution_witness :
    resolveDates
        { date_format := .datetime, date_required := false,
          default_from_date := "2022-01-01T00:00:00", default_until_date := none }
        none none { year := 2024, month := 1, day := 1, hour := 0, minute := 0, second := 0 }
      = .ok (none, none) :=
  (C5_date_window_resolution
      { date_format := .datetime, date_required := false,
        default_from_date := "2022-01-01T00:00:00", default_until_date := none }
      none none
      { year := 2024, month := 1, day := 1, hour := 0, minute := 0, second := 0 }).1
    rfl rfl rfl

/-- Decimal digits render and read back. -/
theorem digitVal_digitChar (k : Nat) (h : k < 10) :
    digitVal (Nat.digitChar k) = some k := by
  interval_cases k <;> decide

/-- A zero-padded four-digit year reads back under `%Y`. -/
theorem parseYear4_pad4 (y : Nat) (rest : List Char) (h : y ≤ 9999) :
    parseYear4 (pad4 y ++ rest) = some (y, rest) := by
  have e1 := digitVal_digitChar (y / 1000 % 10) (by omega)
  have e2 := digitVal_digitChar (y / 100 % 10) (by omega)
  have e3 := digitVal_digitChar (y / 10 % 10) (by omega)
  have e4 := digitVal_digitChar (y % 10) (by omega)
  simp only [pad4, List.cons_append, List.nil_append, parseYear4, e1, e2, e3, e4]
  simp only [Option.some.injEq, Prod.mk.injEq]
  exact ⟨by omega, trivial⟩

/-- A zero-padded two-digit value in the two-digit range of its directive
reads back under that directive. -/
theorem parseNum2_pad2 (lo hi oneLo n : Nat) (rest : List Char)
    (h1 : lo ≤ n) (h2 : n ≤ hi) (h3 : n < 100) :
    parseNum2 lo hi oneLo (pad2 n ++ rest) = some (n, rest) := by
  have e1 := digitVal_digitChar (n / 10 % 10) (by omega)
  have e2 := digitVal_digitChar (n % 10) (by omega)
  simp only [pad2, List.cons_append, List.nil_append, parseNum2, e1, e2]
  have hv : 10 * (n / 10 % 10) + n % 10 = n := by omega
  simp only [hv]
  rw [if_pos ⟨h1, h2⟩]

/-- Every month has at most 31 days. -/
theorem daysInMonth_le_31 (y m : Nat) : daysInMonth y m ≤ 31 := by
  unfold daysInMonth
  split
  · split <;> omega
  · split <;> omega

/-- Numeric bounds of a valid timestamp. -/
theorem validDate_bounds (y mo dy hh mi ss : Nat)
    (h : validDate ⟨y, mo, dy, hh, mi, ss⟩ = true) :
    1 ≤ y ∧ y ≤ 9999 ∧ 1 ≤ mo ∧ mo ≤ 12 ∧ 1 ≤ dy ∧ dy ≤ 31 ∧
      hh ≤ 23 ∧ mi ≤ 59 ∧ ss ≤ 59 := by
  have hdim := daysInMonth_le_31 y mo
  simp only [validDate, Bool.and_eq_true, decide_eq_true_eq] at h
  omega

/-- One literal format character consumes one matching input character. -/
theorem runTokens_lit (c : Char) (ts : List FmtTok) (rest : List Char) (acc : DateTime) :
    runTokens (.lit c :: ts) (c :: rest) acc = runTokens ts rest acc := by
  simp [runTokens]

/-- Directive `%Y` consumes a padded year. -/
theorem runTokens_year (ts : List FmtTok) (y : Nat) (rest : List Char) (acc : DateTime)
    (h : y ≤ 9999) :
    runTokens (.year :: ts) (pad4 y ++ rest) acc
      = runTokens ts rest { acc with year := y } := by
  simp [runTokens, parseYear4_pad4 y rest h]

/-- Directive `%m` consumes a padded month. -/
theorem runTokens_month (ts : List FmtTok) (n : Nat) (rest : List Char) (acc : DateTime)
    (h1 : 1 ≤ n) (h2 : n ≤ 12) :
    runTokens (.month :: ts) (pad2 n ++ rest) acc
      = runTokens ts rest { acc with month := n } := by
  simp [runTokens, parseNum2_pad2 1 12 1 n rest h1 h2 (by omega)]

/-- Directive `%d` consumes a padded day. -/
theorem runTokens_day (ts : List FmtTok) (n : Nat) (rest : List Char) (acc : DateTime)
    (h1 : 1 ≤ n) (h2 : n ≤ 31) :
    runTokens (.day :: ts) (pad2 n ++ rest) acc
      = runTokens ts rest { acc with day := n } := by
  simp [runTokens, parseNum2_pad2 1 31 1 n rest h1 h2 (by omega)]

/-- Directive `%H` consumes a padded hour. -/
theorem runTokens_hour (ts : List FmtTok) (n : Nat) (rest : List Char) (acc : DateTime)
    (h2 : n ≤ 23) :
    runTokens (.hour :: ts) (pad2 n ++ rest) acc
      = runTokens ts rest { acc with hour := n } := by
  simp [runTokens, parseNum2_pad2 0 23 0 n rest (by omega) h2 (by omega)]

/-- Directive `%M` consumes a padded minute. -/
theorem runTokens_minute (ts : List FmtTok) (n : Nat) (rest : List Char) (acc : DateTime)
    (h2 : n ≤ 59) :
    runTokens (.minute :: ts) (pad2 n ++ rest) acc
      = runTokens ts rest { acc with minute := n } := by
  simp [runTokens, parseNum2_pad2 0 59 0 n rest (by omega) h2 (by omega)]

/-- Directive `%S` consumes a padded second. -/
theorem runTokens_second (ts : List FmtTok) (n : Nat) (rest : List Char) (acc : DateTime)
    (h2 : n ≤ 59) :
    runTokens (.second :: ts) (pad2 n ++ rest) acc
      = runTokens ts rest { acc with second := n } := by
  simp [runTokens, parseNum2_pad2 0 59 0 n rest (by omega) h2 (by omega)]

/-- The `strftime`/`strptime` round trip of `DatabaseStore.spider_opened`
(lines 74-76) is the identity on valid timestamps under the `datetime`
format. -/
theorem strptime_strftime_datetime (d : DateTime) (h : validDate d = true) :
    strptime fmtDatetime (strftime fmtDatetime d) = some d := by
  obtain ⟨y, mo, dy, hh, mi, ss⟩ := d
  obtain ⟨hy1, hy2, hm1, hm2, hd1, hd2, hh2, hmi2, hss2⟩ :=
    validDate_bounds y mo dy hh mi ss h
  have hflat : strftime fmtDatetime ⟨y, mo, dy, hh, mi, ss⟩
      = String.mk (pad4 y ++ '-' :: (pad2 mo ++ '-' :: (pad2 dy ++ 'T' ::
          (pad2 hh ++ ':' :: (pad2 mi ++ ':' :: (pad2 ss ++ [])))))) := by
    simp [strftime, strftimeTok, fmtDatetime]
  rw [hflat]
  show (match runTokens fmtDatetime (pad4 y ++ '-' :: (pad2 mo ++ '-' :: (pad2 dy ++ 'T' ::
      (pad2 hh ++ ':' :: (pad2 mi ++ ':' :: (pad2 ss ++ [])))))) dtDefault with
    | some d => if validDate d then some d else none
    | none => none) = _
  rw [show fmtDatetime = [FmtTok.year, .lit '-', .month, .lit '-', .day, .lit 'T',
    .hour, .lit ':', .minute, .lit ':', .second] from rfl]
  rw [runTokens_year _ _ _ _ hy2, runTokens_lit, runTokens_month _ _ _ _ hm1 hm2,
    runTokens_lit, runTokens_day _ _ _ _ hd1 hd2, runTokens_lit,
    runTokens_hour _ _ _ _ hh2, runTokens_lit, runTokens_minute _ _ _ _ hmi2,
    runTokens_lit, runTokens_second _ _ _ _ hss2]
  show (if validDate ⟨y, mo, dy, hh, mi, ss⟩ = true then
      some (⟨y, mo, dy, hh, mi, ss⟩ : DateTime)
    else none) = some (⟨y, mo, dy, hh, mi, ss⟩ : DateTime)
  rw [if_pos h]

/-- Creating a table if absent changes no table's rows. -/
theorem rowsOf_create_table (db : DB) (t t' : String) :
    rowsOf (create_table db t) t' = rowsOf db t' := by
  unfold create_table
  split
  · rfl
  · rename_i hns
    by_cases he : t' = t
    · subst he
      have hnone : db.lookup t' = none := by
        cases hl : db.lookup t' with
        | none => rfl
        | some tab => rw [hl] at hns; simp at hns
      simp [rowsOf, List.lookup, hnone]
    · have hne : (t' == t) = false := by simp [he]
      simp [rowsOf, List.lookup, hne]

/-- A table with no rows yields no maximum. -/
theorem sqlMaxDate_nil (cast : String → Option DateTime) (col : String) :
    sqlMaxDate cast col [] = none := rfl

/-- C6 (confirmed): `spider_opened` changes no table's rows (its only
schema action is creating the absent main table empty, and its only query
is the `max` aggregate); when the main table does not exist or is empty,
`from_date` is left unchanged; an explicit `from_date` differing from
`default_from_date` is never replaced; and when the query returns a
maximum, `from_date` is set to exactly that maximum (shown for the
`datetime` granularity the repository's `date_column` spider uses, where
the `strftime`/`strptime` round trip is the identity), provided `from_date`
was unset or equal to `default_from_date`. -/
theorem C6_resume_checkpoint (cast : String → Option DateTime) (db : DB)
    (sp : StoreSpider) (db' : DB) (sp' : StoreSpider)
    (h : spider_opened cast db sp = some (db', sp')) :
    (∀ t', rowsOf db' t' = rowsOf db t')
    ∧ ((db.lookup sp.table_name = none ∨ rowsOf db sp.table_name = []) →
        sp'.from_date = sp.from_date)
    ∧ (∀ dF, parsedDefaultFrom sp = some dF → sp.from_date ≠ none →
        sp.from_date ≠ dF → sp' = sp)
    ∧ (∀ col dF m, sp.date_column = some col → parsedDefaultFrom sp = some dF →
        (sp.from_date = none ∨ sp.from_date = dF) →
        sqlMaxDate cast col (rowsOf db sp.table_name) = some m →
        sp.date_format = DateGranularity.datetime → validDate m = true →
        sp'.from_date = some m) := by
  have hempty : (db.lookup sp.table_name = none ∨ rowsOf db sp.table_name = []) →
      rowsOf db sp.table_name = [] := by
    intro hc
    rcases hc with hc | hc
    · simp [rowsOf, hc]
    · exact hc
  simp only [spider_opened] at h
  split at h
  · cases h
  · rename_i dF0 hdF0
    split at h
    · rename_i hcond
      split at h
      · rename_i heqm
        cases h
        refine ⟨fun t' => rowsOf_create_table db sp.table_name t', fun _ => rfl,
          fun _ _ _ _ => rfl, ?_⟩
        intro col dF m hcol hdF hover hmax _ _
        rw [rowsOf_create_table] at heqm
        rw [hcol] at heqm
        simp only [Option.getD_some] at heqm
        rw [hmax] at heqm
        cases heqm
      · rename_i m0 heqm
        split at h
        · cases h
        · rename_i resumed heqr
          cases h
          rw [rowsOf_create_table] at heqm
          refine ⟨fun t' => rowsOf_create_table db sp.table_name t', ?_, ?_, ?_⟩
          · intro hc
            rw [hempty hc] at heqm
            rw [sqlMaxDate_nil] at heqm
            cases heqm
          · intro dF hdF hne1 hne2
            rw [hdF0] at hdF
            cases hdF
            rcases hcond.2 with hc | hc
            · exact absurd hc hne1
            · exact absurd hc hne2
          · intro col dF m hcol hdF hover hmax hfmt hval
            rw [hcol] at heqm
            simp only [Option.getD_some] at heqm
            rw [hmax] at heqm
            have hm : m0 = m := by
              injection heqm with hmm
              exact hmm.symm
            rw [hfmt] at heqr
            simp only [VALID_DATE_FORMATS] at heqr
            rw [hm, strptime_strftime_datetime m hval] at heqr
            cases heqr
            rfl
    · rename_i hcond
      cases h
      refine ⟨fun t' => rowsOf_create_table db sp.table_name t', fun _ => rfl,
        fun _ _ _ _ => rfl, ?_⟩
      intro col dF m hcol hdF hover hmax _ _
      rw [hdF0] at hdF
      cases hdF
      exact absurd ⟨by simp [hcol], hover⟩ hcond

/-- C6 (witness): a one-row table with `deal_date` `2023-05-06T07:08:09`
and an unset `from_date` resumes the crawl from exactly that value. -/
theorem C6_resume_checkpoint_witness :
    (StoreSpider.mk
        (some ⟨2023, 5, 6, 7, 8, 9⟩) DateGranularity.datetime
        (some "2022-01-01T00:00:00") "uzbekistan_completed_deals"
        (some "deal_date")).from_date = some ⟨2023, 5, 6, 7, 8, 9⟩ :=
  (C6_resume_checkpoint (strptime fmtDatetime)
      [("uzbekistan_completed_deals",
        Table.mk [[("deal_date", "2023-05-06T07:08:09")]] none)]
      (StoreSpider.mk none DateGranularity.datetime (some "2022-01-01T00:00:00")
        "uzbekistan_completed_deals" (some "deal_date"))
      [("uzbekistan_completed_deals",
        Table.mk [[("deal_date", "2023-05-06T07:08:09")]] none)]
      (StoreSpider.mk (some ⟨2023, 5, 6, 7, 8, 9⟩) DateGranularity.datetime
        (some "2022-01-01T00:00:00") "uzbekistan_completed_deals" (some "deal_date"))
      (by decide)).2.2.2 "deal_date" (some ⟨2022, 1, 1, 0, 0, 0⟩) ⟨2023, 5, 6, 7, 8, 9⟩
    rfl (by decide) (Or.inl rfl) (by decide) rfl (by decide)
